import Mathlib

/-!
Shallow embedding of the SMARTIES embedding service core
(`src/embedding_service.py` and `src/embedding_service_interface.py`).

Strings are modelled as `List Char` (Python `str`), restricted to the ASCII
behaviour of `str.lower`, `str.strip`, `re` character classes `\w` and `\s`
(all inputs exercised by the claims are ASCII).  The left-to-right,
non-overlapping semantics of `str.replace` and `re.sub` is modelled by
fuel-based scanners; the fuel argument is the length of the scanned string,
which each recursive step strictly decreases, so the fuel never runs out.
Embedding vectors are lists of `FloatVal` (NaN, signed infinity, or an exact
rational), which models IEEE floats without rounding; the quality gate only
compares magnitudes, so its comparisons are expressed on the squared norm.
-/

/-- Python whitespace (`str.strip`, regex `\s`), ASCII fragment. -/
def isSpace (c : Char) : Bool :=
  c == ' ' || c == '\t' || c == '\n' || c == '\r' || c == '\x0b' || c == '\x0c'

/-- Regex `\w` (word character), ASCII fragment. -/
def isWordChar (c : Char) : Bool := c.isAlphanum || c == '_'

/-- Python `str.strip()`: remove leading and trailing whitespace. -/
def pyStrip (s : List Char) : List Char :=
  ((s.dropWhile isSpace).reverse.dropWhile isSpace).reverse

/-- Python `str.lower()` (ASCII fragment). -/
def lowerStr (s : List Char) : List Char := s.map Char.toLower

/-- Scanner for `str.replace(pat, rep)`: replace non-overlapping occurrences
left to right; the replacement text is not rescanned.  `fuel` bounds the
number of scanned characters. -/
def replaceAllAux (pat rep : List Char) : Nat → List Char → List Char
  | _, [] => []
  | 0, s => s
  | fuel + 1, c :: rest =>
    if pat.isPrefixOf (c :: rest) then
      rep ++ replaceAllAux pat rep fuel ((c :: rest).drop pat.length)
    else
      c :: replaceAllAux pat rep fuel rest

/-- Python `s.replace(pat, rep)` for a non-empty pattern (all call sites use
non-empty literal patterns). -/
def replaceAll (pat rep s : List Char) : List Char :=
  if pat = [] then s else replaceAllAux pat rep s.length s

/-- Scanner for `re.sub(r'\s+', ' ', s)`: each maximal whitespace run becomes
a single space. -/
def collapseWSAux : Nat → List Char → List Char
  | _, [] => []
  | 0, s => s
  | fuel + 1, c :: rest =>
    if isSpace c then ' ' :: collapseWSAux fuel (rest.dropWhile isSpace)
    else c :: collapseWSAux fuel rest

/-- `re.sub(r'\s+', ' ', s)`. -/
def collapseWS (s : List Char) : List Char := collapseWSAux s.length s

/-- Scanner for `re.sub(r',\s*,', ',', s)`: a match is a comma, optional
whitespace, and a comma; matches are non-overlapping and the replacement
comma is not rescanned. -/
def collapseCommasAux : Nat → List Char → List Char
  | _, [] => []
  | 0, s => s
  | fuel + 1, c :: rest =>
    if c == ',' && ((rest.dropWhile isSpace).headD 'x' == ',') then
      ',' :: collapseCommasAux fuel (rest.dropWhile isSpace).tail
    else
      c :: collapseCommasAux fuel rest

/-- `re.sub(r',\s*,', ',', s)`. -/
def collapseCommas (s : List Char) : List Char := collapseCommasAux s.length s

/-- Scanner for `re.sub(r'-+', '-', s)`: each maximal hyphen run becomes a
single hyphen. -/
def collapseHyphensAux : Nat → List Char → List Char
  | _, [] => []
  | 0, s => s
  | fuel + 1, c :: rest =>
    if c == '-' then '-' :: collapseHyphensAux fuel (rest.dropWhile (· == '-'))
    else c :: collapseHyphensAux fuel rest

/-- `re.sub(r'-+', '-', s)`. -/
def collapseHyphens (s : List Char) : List Char := collapseHyphensAux s.length s

/-- Scanner for Python `str.split()` with no separator: whitespace-delimited
words, no empty strings in the result. -/
def wordsAux : Nat → List Char → List (List Char)
  | _, [] => []
  | 0, _ => []
  | fuel + 1, c :: rest =>
    if isSpace c then wordsAux fuel rest
    else
      ((c :: rest).takeWhile (fun d => !isSpace d)) ::
        wordsAux fuel ((c :: rest).dropWhile (fun d => !isSpace d)).tail

/-- Python `s.split()` (split on whitespace runs, dropping empties). -/
def words (s : List Char) : List (List Char) := wordsAux s.length s

/-- Attempt to match one regex alternative at the start of `s`, with the `\b`
boundary assertions of `\b(alt1|alt2|...)\b`: `prevWord` tells whether the
character before `s` is a word character, and the character after the match
(end of string counts as non-word) must differ in wordness from the last
matched character.  Alternatives are tried left to right. -/
def matchAlt (alts : List (List Char)) (prevWord : Bool) (s : List Char) : Option (List Char) :=
  alts.find? (fun a =>
    !a.isEmpty && a.isPrefixOf s &&
    (prevWord != isWordChar (a.headD ' ')) &&
    (isWordChar (a.getLastD ' ') != isWordChar (((s.drop a.length)).headD ' ')))

/-- Scanner for `re.sub(r'\b(alt1|...)\b', '', s)`: scan left to right,
deleting each match; scanning resumes after the deleted text with the
original string's boundary context. -/
def subAltsAux (alts : List (List Char)) : Nat → Bool → List Char → List Char
  | _, _, [] => []
  | 0, _, s => s
  | fuel + 1, prevWord, c :: rest =>
    match matchAlt alts prevWord (c :: rest) with
    | some a => subAltsAux alts fuel (isWordChar (a.getLastD ' ')) ((c :: rest).drop a.length)
    | none => c :: subAltsAux alts fuel (isWordChar c) rest

/-- `re.sub(r'\b(alt1|...)\b', '', s)` starting at the beginning of the
string (no preceding character, hence non-word context). -/
def subAlts (alts : List (List Char)) (s : List Char) : List Char :=
  subAltsAux alts s.length false s

/-- Characters kept by `re.sub(r'[^\w\s,.-]', '', ...)` in
`_preprocess_ingredients`. -/
def keepIngredientChar (c : Char) : Bool :=
  isWordChar c || isSpace c || c == ',' || c == '.' || c == '-'

/-- `EmbeddingService._preprocess_ingredients`. -/
def preprocessIngredients (raw : List Char) : List Char :=
  let p0 := lowerStr (pyStrip raw)
  let p1 := pyStrip (replaceAll "ingredients:".data [] p0)
  let p2 := pyStrip (replaceAll "contains:".data [] p1)
  let p3 := pyStrip (replaceAll "may contain:".data [] p2)
  let p4 := replaceAll "wheat flour".data "flour wheat".data p3
  let p5 := replaceAll "cane sugar".data "sugar".data p4
  let p6 := replaceAll "sea salt".data "salt".data p5
  let p7 := replaceAll "natural flavor".data "natural flavoring".data p6
  let p8 := replaceAll "artificial flavor".data "artificial flavoring".data p7
  let p9 := p8.filter keepIngredientChar
  let p10 := collapseWS p9
  let p11 := collapseCommas p10
  pyStrip p11

/-- Brand-suffix alternatives of `_normalize_product_name`
(`\b(brand|co\.|inc\.|ltd\.|llc)\b`). -/
def brandTokens : List (List Char) :=
  ["brand".data, "co.".data, "inc.".data, "ltd.".data, "llc".data]

/-- Generic descriptors of `_normalize_product_name`
(`\b(original|classic|traditional)\b`). -/
def genericDescriptors : List (List Char) :=
  ["original".data, "classic".data, "traditional".data]

/-- Characters kept by `re.sub(r'[^\w\s-]', '', ...)` in
`_normalize_product_name`. -/
def keepNameChar (c : Char) : Bool := isWordChar c || isSpace c || c == '-'

/-- `EmbeddingService._normalize_product_name`. -/
def normalizeProductName (raw : List Char) : List Char :=
  let p0 := lowerStr (pyStrip raw)
  let p1 := subAlts brandTokens p0
  let p2 := subAlts genericDescriptors p1
  let p3 := replaceAll "choc chip".data "chocolate chip".data p2
  let p4 := replaceAll "choc. chip".data "chocolate chip".data p3
  let p5 := replaceAll "w/".data "with".data p4
  let p6 := replaceAll "&".data "and".data p5
  let p7 := p6.filter keepNameChar
  let p8 := collapseWS p7
  let p9 := collapseHyphens p8
  pyStrip p9

/-- The fixed allergen mapping table of `_process_allergen_profile`. -/
def allergenMapping : List (List Char × List Char) :=
  [("milk".data, "dairy".data),
   ("eggs".data, "egg".data),
   ("tree-nuts".data, "tree nuts".data),
   ("tree_nuts".data, "tree nuts".data),
   ("peanuts".data, "peanut".data),
   ("shellfish".data, "shellfish".data),
   ("fish".data, "fish".data),
   ("wheat".data, "gluten".data),
   ("soy".data, "soy".data),
   ("sesame".data, "sesame".data)]

/-- Lower-case a raw allergen token and strip the `en:` and `allergens:`
markers (`allergen.lower().replace("en:", "").replace("allergens:", "")`). -/
def markerStripped (tok : List Char) : List Char :=
  replaceAll "allergens:".data [] (replaceAll "en:".data [] (lowerStr tok))

/-- Per-token normalisation of `_process_allergen_profile`:
`allergen_mapping.get(normalized, normalized)` after marker stripping. -/
def normalizeAllergenToken (tok : List Char) : List Char :=
  let k := markerStripped tok
  (List.lookup k allergenMapping).getD k

/-- One step of the accumulation loop of `_process_allergen_profile`: skip
empty tokens, normalise, and append when non-empty and not already seen. -/
def addAllergen (acc : List (List Char)) (tok : List Char) : List (List Char) :=
  if tok = [] then acc
  else
    let n := normalizeAllergenToken tok
    if n ≠ [] ∧ n ∉ acc then acc ++ [n] else acc

/-- The `normalized_allergens` list built by `_process_allergen_profile`
(first-seen order, deduplicated). -/
def normalizedAllergens (toks : List (List Char)) : List (List Char) :=
  toks.foldl addAllergen []

/-- Lexicographic comparison of Python strings (by code point), as used by
`list.sort()` on the allergen tokens. -/
def lexLe : List Char → List Char → Bool
  | [], _ => true
  | _ :: _, [] => false
  | a :: as, b :: bs => if a = b then lexLe as bs else decide (a < b)

/-- The sorting order on allergen tokens. -/
def tokenLe (a b : List Char) : Prop := lexLe a b = true

instance : DecidableRel tokenLe :=
  fun a b => inferInstanceAs (Decidable (lexLe a b = true))

/-- `normalized_allergens.sort()`. -/
def sortTokens (l : List (List Char)) : List (List Char) :=
  List.insertionSort tokenLe l

/-- The `Union[str, List[str]]` input of `_process_allergen_profile`. -/
inductive AllergenInput where
  | str (s : List Char)
  | list (l : List (List Char))

/-- Token extraction of `_process_allergen_profile`: a single string is split
on commas and semicolons (replaced by spaces) and then on whitespace; a list
is taken element-wise; each token is stripped. -/
def allergenTokens : AllergenInput → List (List Char)
  | .str s => (words (replaceAll ";".data " ".data (replaceAll ",".data " ".data s))).map pyStrip
  | .list l => l.map pyStrip

/-- `EmbeddingService._process_allergen_profile`. -/
def processAllergenProfile (a : AllergenInput) : List Char :=
  let ns := normalizedAllergens (allergenTokens a)
  if ns = [] then "no known allergens".data
  else "contains ".data ++ List.intercalate ", ".data (sortTokens ns)

/-- An IEEE floating-point value, modelled exactly: NaN, a signed infinity,
or a finite value represented by the rational it denotes. -/
inductive FloatVal where
  | nan : FloatVal
  | inf (neg : Bool) : FloatVal
  | finite (q : ℚ) : FloatVal
deriving DecidableEq

/-- `np.isnan` on one element. -/
def FloatVal.isNaN : FloatVal → Bool
  | .nan => true
  | _ => false

/-- `np.isinf` on one element. -/
def FloatVal.isInf : FloatVal → Bool
  | .inf _ => true
  | _ => false

/-- The square of a finite element; only used below on vectors that contain
no NaN or infinity (the gate checks those first). -/
def FloatVal.sq : FloatVal → ℚ
  | .finite q => q * q
  | _ => 0

/-- Squared Euclidean norm (`np.linalg.norm(v) ** 2`) for all-finite
vectors. -/
def sumSq (v : List FloatVal) : ℚ := (v.map FloatVal.sq).sum

/-- The `embedding_type` argument of `_validate_embedding_quality`. -/
inductive FieldType where
  | ingredient
  | productName
  | allergen
deriving DecidableEq

/-- Reason codes for the quality gate, one per rule, matching the distinct
warning emitted on each failure path of `_validate_embedding_quality`. -/
inductive Reason where
  | emptyEmbedding
  | wrongDimension
  | nanOrInf
  | unusualMagnitude
  | zeroVector
  | fieldSpecific
deriving DecidableEq

/-- Outcome of the quality gate: accepted, or rejected with a reason. -/
inductive Verdict where
  | accepted : Verdict
  | rejected (r : Reason) : Verdict
deriving DecidableEq

/-- The magnitude test `magnitude < 0.1 or magnitude > 2.0` where
`magnitude = np.linalg.norm(embedding)`, expressed on the squared norm
(`0.1² = 1/100`, `2.0² = 4`).  With a NaN present the IEEE norm is NaN and
both comparisons are false; with an infinity (and no NaN) the norm is `inf`
and the `> 2.0` comparison is true. -/
def magnitudeBad (v : List FloatVal) : Bool :=
  if v.any FloatVal.isNaN then false
  else if v.any FloatVal.isInf then true
  else decide (sumSq v < 1 / 100 ∨ 4 < sumSq v)

/-- One element of `np.allclose(embedding, 0, atol=1e-6)`: `|x| ≤ 1e-6`
(with `rtol` multiplied by `|0| = 0`); false on NaN and infinities. -/
def FloatVal.nearZero : FloatVal → Bool
  | .finite q => decide (|q| ≤ 1 / 1000000)
  | _ => false

/-- The generic product-name list of `_validate_embedding_quality`. -/
def genericTerms : List (List Char) :=
  ["product".data, "item".data, "food".data, "snack".data]

/-- The field-specific plausibility rule of `_validate_embedding_quality`. -/
def fieldRuleBad (ft : FieldType) (text : List Char) : Bool :=
  match ft with
  | .ingredient => decide ((words text).length < 1)
  | .productName => decide (pyStrip text ∈ genericTerms)
  | .allergen =>
      !("contains".data.isPrefixOf text || "no known".data.isPrefixOf text)

/-- `EmbeddingService._validate_embedding_quality`, with the boolean verdict
enriched by the reason of the failing rule (the code logs a distinct warning
on each failure path). `None` embeddings cannot arise here: every caller in
the source checks `embedding is not None` before validating. -/
def validateEmbeddingQuality (v : List FloatVal) (ft : FieldType) (text : List Char) : Verdict :=
  if v.length = 0 then .rejected .emptyEmbedding
  else if v.length ≠ 384 then .rejected .wrongDimension
  else if v.any FloatVal.isNaN || v.any FloatVal.isInf then .rejected .nanOrInf
  else if magnitudeBad v then .rejected .unusualMagnitude
  else if v.all FloatVal.nearZero then .rejected .zeroVector
  else if fieldRuleBad ft text then .rejected .fieldSpecific
  else .accepted

/-- The rule list of the gate, in source order, identified by reason code. -/
def ruleOrder : List Reason :=
  [.emptyEmbedding, .wrongDimension, .nanOrInf, .unusualMagnitude, .zeroVector, .fieldSpecific]

/-- Whether the rule identified by a reason code fails on the given input. -/
def ruleFails (v : List FloatVal) (ft : FieldType) (text : List Char) : Reason → Bool
  | .emptyEmbedding => decide (v.length = 0)
  | .wrongDimension => decide (v.length ≠ 384)
  | .nanOrInf => v.any FloatVal.isNaN || v.any FloatVal.isInf
  | .unusualMagnitude => magnitudeBad v
  | .zeroVector => v.all FloatVal.nearZero
  | .fieldSpecific => fieldRuleBad ft text

/-- The external vector-generation capability, one canonical string in,
one vector out (or failure). -/
def Model : Type := List Char → Option (List FloatVal)

/-- The batch form of the external capability (`model.encode(texts)`). -/
def BatchModel : Type := List (List Char) → Option (List (List FloatVal))

/-- Rejection reasons exposed by the per-field generate operations. -/
inductive GenReason where
  | emptyInput
  | generationFailed
  | qualityFailed (r : Reason)
deriving DecidableEq

/-- Result of a per-field generate operation. -/
inductive GenResult where
  | vector (v : List FloatVal)
  | rejected (r : GenReason)
deriving DecidableEq

/-- `EmbeddingService.generate_ingredient_embedding`, paired with the number
of calls made to the external model. -/
def generateIngredientEmbedding (m : Model) (text : List Char) : GenResult × Nat :=
  if text = [] ∨ pyStrip text = [] then (.rejected .emptyInput, 0)
  else
    let processed := preprocessIngredients text
    match m processed with
    | none => (.rejected .generationFailed, 1)
    | some emb =>
      match validateEmbeddingQuality emb .ingredient processed with
      | .accepted => (.vector emb, 1)
      | .rejected r => (.rejected (.qualityFailed r), 1)

/-- `EmbeddingService.generate_product_name_embedding`, with model-call
count. -/
def generateProductNameEmbedding (m : Model) (text : List Char) : GenResult × Nat :=
  if text = [] ∨ pyStrip text = [] then (.rejected .emptyInput, 0)
  else
    let processed := normalizeProductName text
    match m processed with
    | none => (.rejected .generationFailed, 1)
    | some emb =>
      match validateEmbeddingQuality emb .productName processed with
      | .accepted => (.vector emb, 1)
      | .rejected r => (.rejected (.qualityFailed r), 1)

/-- Python falsiness of the `allergens` argument (`if not allergens`): empty
string or empty list.  A whitespace-only string is truthy. -/
def allergenFalsy : AllergenInput → Bool
  | .str s => decide (s = [])
  | .list l => decide (l = [])

/-- `EmbeddingService.generate_allergen_embedding`, with model-call count.
Note the guard is `if not allergens`, not a `strip()` check. -/
def generateAllergenEmbedding (m : Model) (a : AllergenInput) : GenResult × Nat :=
  if allergenFalsy a then (.rejected .emptyInput, 0)
  else
    let processed := processAllergenProfile a
    match m processed with
    | none => (.rejected .generationFailed, 1)
    | some emb =>
      match validateEmbeddingQuality emb .allergen processed with
      | .accepted => (.vector emb, 1)
      | .rejected r => (.rejected (.qualityFailed r), 1)

/-- `EmbeddingService.generate_embeddings_batch`, with encode-call count:
an empty list short-circuits to an empty result, otherwise the whole list is
passed to the external capability in one call. -/
def generateEmbeddingsBatch (bm : BatchModel) (texts : List (List Char)) :
    Option (List (List FloatVal)) × Nat :=
  if texts = [] then (some [], 0)
  else
    match bm texts with
    | none => (none, 1)
    | some es => (some es, 1)

/-- Arguments of a cross-process command (`args.get('text', '')` /
`args.get('texts', [])`). -/
structure CommandArgs where
  text : Option (List Char)
  texts : Option (List (List Char))

/-- A JSON response of `embedding_service_interface.py`: a success payload
or `{success: false, error: ...}`. -/
inductive IfaceResponse where
  | modelInfo
  | embedding (v : List FloatVal)
  | embeddings (vs : List (List FloatVal))
  | failure (error : List Char)
deriving DecidableEq

/-- `EmbeddingServiceInterface.generate_ingredient_embedding`. -/
def ifaceIngredient (m : Model) (text : List Char) : IfaceResponse × Nat :=
  if text = [] then (.failure "Text is required".data, 0)
  else
    match generateIngredientEmbedding m text with
    | (.vector v, n) => (.embedding v, n)
    | (.rejected _, n) => (.failure "Failed to generate embedding".data, n)

/-- `EmbeddingServiceInterface.generate_product_name_embedding`. -/
def ifaceProductName (m : Model) (text : List Char) : IfaceResponse × Nat :=
  if text = [] then (.failure "Text is required".data, 0)
  else
    match generateProductNameEmbedding m text with
    | (.vector v, n) => (.embedding v, n)
    | (.rejected _, n) => (.failure "Failed to generate embedding".data, n)

/-- `EmbeddingServiceInterface.generate_allergen_embedding` (the interface
always passes the `text` argument as a string). -/
def ifaceAllergen (m : Model) (text : List Char) : IfaceResponse × Nat :=
  if text = [] then (.failure "Text is required".data, 0)
  else
    match generateAllergenEmbedding m (.str text) with
    | (.vector v, n) => (.embedding v, n)
    | (.rejected _, n) => (.failure "Failed to generate embedding".data, n)

/-- `EmbeddingServiceInterface.generate_embeddings_batch`. -/
def ifaceBatch (bm : BatchModel) (texts : List (List Char)) : IfaceResponse × Nat :=
  if texts = [] then (.failure "Texts must be a non-empty list".data, 0)
  else
    match generateEmbeddingsBatch bm texts with
    | (some es, n) => (.embeddings es, n)
    | (none, n) => (.failure "Failed to generate batch embeddings".data, n)

/-- The known command names of `handle_command`. -/
def knownCommands : List (List Char) :=
  ["get_model_info".data,
   "generate_ingredient_embedding".data,
   "generate_product_name_embedding".data,
   "generate_allergen_embedding".data,
   "generate_embeddings_batch".data]

/-- `EmbeddingServiceInterface.handle_command`, with total model-call
count. -/
def handleCommand (m : Model) (bm : BatchModel) (cmd : List Char) (args : CommandArgs) :
    IfaceResponse × Nat :=
  if cmd = "get_model_info".data then (.modelInfo, 0)
  else if cmd = "generate_ingredient_embedding".data then ifaceIngredient m (args.text.getD [])
  else if cmd = "generate_product_name_embedding".data then ifaceProductName m (args.text.getD [])
  else if cmd = "generate_allergen_embedding".data then ifaceAllergen m (args.text.getD [])
  else if cmd = "generate_embeddings_batch".data then ifaceBatch bm (args.texts.getD [])
  else (.failure ("Unknown command: ".data ++ cmd), 0)

/-- Two identical adjacent punctuation characters somewhere in the string
(doubled punctuation). -/
def hasDoubledPunct (l : List Char) : Bool :=
  (l.zip l.tail).any (fun p =>
    p.1 == p.2 && (p.1 == ',' || p.1 == ';' || p.1 == '!' || p.1 == '?' || p.1 == '.'))

theorem lexLe_total (a b : List Char) : lexLe a b = true ∨ lexLe b a = true := by
  induction a generalizing b with
  | nil => left; rfl
  | cons x xs ih =>
    cases b with
    | nil => right; rfl
    | cons y ys =>
      by_cases hxy : x = y
      · subst hxy
        rcases ih ys with h | h
        · left; simpa [lexLe] using h
        · right; simpa [lexLe] using h
      · rcases lt_or_gt_of_ne hxy with h | h
        · left; simp [lexLe, hxy, h]
        · right; simp [lexLe, Ne.symm hxy, h]

theorem lexLe_trans (a b c : List Char) (hab : lexLe a b = true) (hbc : lexLe b c = true) :
    lexLe a c = true := by
  induction a generalizing b c with
  | nil => rfl
  | cons x xs ih =>
    cases b with
    | nil => simp [lexLe] at hab
    | cons y ys =>
      cases c with
      | nil => simp [lexLe] at hbc
      | cons z zs =>
        by_cases hxy : x = y <;> by_cases hyz : y = z
        · subst hxy; subst hyz
          simp only [lexLe, if_pos rfl] at hab hbc ⊢
          exact ih ys zs hab hbc
        · subst hxy
          simp only [lexLe, if_pos rfl, if_neg hyz, decide_eq_true_eq] at hbc ⊢
          simp [hyz, hbc]
        · subst hyz
          simp only [lexLe, if_neg hxy, decide_eq_true_eq] at hab
          simp [lexLe, hxy, hab]
        · simp only [lexLe, if_neg hxy, if_neg hyz, decide_eq_true_eq] at hab hbc
          have hxz : x < z := lt_trans hab hbc
          simp [lexLe, ne_of_lt hxz, hxz]

theorem lexLe_antisymm (a b : List Char) (hab : lexLe a b = true) (hba : lexLe b a = true) :
    a = b := by
  induction a generalizing b with
  | nil =>
    cases b with
    | nil => rfl
    | cons y ys => simp [lexLe] at hba
  | cons x xs ih =>
    cases b with
    | nil => simp [lexLe] at hab
    | cons y ys =>
      by_cases hxy : x = y
      · subst hxy
        simp only [lexLe, if_pos rfl] at hab hba
        rw [ih ys hab hba]
      · simp only [lexLe, if_neg hxy, decide_eq_true_eq] at hab
        simp only [lexLe, if_neg (Ne.symm hxy), decide_eq_true_eq] at hba
        exact absurd hba (not_lt_of_lt hab)

instance : IsTotal (List Char) tokenLe := ⟨lexLe_total⟩

instance : IsTrans (List Char) tokenLe := ⟨lexLe_trans⟩

instance : IsAntisymm (List Char) tokenLe := ⟨lexLe_antisymm⟩

theorem mem_addAllergen (acc : List (List Char)) (t x : List Char) :
    x ∈ addAllergen acc t ↔
      x ∈ acc ∨ (t ≠ [] ∧ normalizeAllergenToken t = x ∧ x ≠ []) := by
  unfold addAllergen
  by_cases ht : t = []
  · simp [ht]
  · by_cases hn : normalizeAllergenToken t ≠ [] ∧ normalizeAllergenToken t ∉ acc
    · simp only [if_neg ht, if_pos hn, List.mem_append, List.mem_singleton]
      constructor
      · rintro (h | h)
        · exact Or.inl h
        · exact Or.inr ⟨ht, h.symm, h ▸ hn.1⟩
      · rintro (h | ⟨-, h, -⟩)
        · exact Or.inl h
        · exact Or.inr h.symm
    · simp only [if_neg ht, if_neg hn]
      rw [not_and_or, not_not, not_not] at hn
      constructor
      · exact Or.inl
      · rintro (h | ⟨-, h, hx⟩)
        · exact h
        · rcases hn with hnil | hmem
          · exact absurd (h ▸ hnil) hx
          · exact h ▸ hmem

theorem mem_foldl_addAllergen (l : List (List Char)) (acc : List (List Char)) (x : List Char) :
    x ∈ l.foldl addAllergen acc ↔
      x ∈ acc ∨ ∃ t ∈ l, t ≠ [] ∧ normalizeAllergenToken t = x ∧ x ≠ [] := by
  induction l generalizing acc with
  | nil => simp
  | cons t l ih =>
    rw [List.foldl_cons, ih, mem_addAllergen]
    simp only [List.mem_cons]
    constructor
    · rintro ((h | h) | ⟨u, hu, h⟩)
      · exact Or.inl h
      · exact Or.inr ⟨t, Or.inl rfl, h⟩
      · exact Or.inr ⟨u, Or.inr hu, h⟩
    · rintro (h | ⟨u, hu | hu, h⟩)
      · exact Or.inl (Or.inl h)
      · exact Or.inl (Or.inr (hu ▸ h))
      · exact Or.inr ⟨u, hu, h⟩

theorem nodup_addAllergen (acc : List (List Char)) (t : List Char) (h : acc.Nodup) :
    (addAllergen acc t).Nodup := by
  unfold addAllergen
  by_cases ht : t = []
  · simpa [ht]
  · by_cases hn : normalizeAllergenToken t ≠ [] ∧ normalizeAllergenToken t ∉ acc
    · simp only [if_neg ht, if_pos hn]
      simpa [List.nodup_append, h] using hn.2
    · simpa [if_neg ht, if_neg hn]

theorem nodup_foldl_addAllergen (l : List (List Char)) (acc : List (List Char)) (h : acc.Nodup) :
    (l.foldl addAllergen acc).Nodup := by
  induction l generalizing acc with
  | nil => simpa
  | cons t l ih => exact ih (addAllergen acc t) (nodup_addAllergen acc t h)

theorem normalizedAllergens_nodup (l : List (List Char)) : (normalizedAllergens l).Nodup :=
  nodup_foldl_addAllergen l [] List.nodup_nil

theorem normalizedAllergens_perm {l₁ l₂ : List (List Char)} (h : l₁.Perm l₂) :
    (normalizedAllergens l₁).Perm (normalizedAllergens l₂) := by
  rw [List.perm_ext_iff_of_nodup (normalizedAllergens_nodup l₁) (normalizedAllergens_nodup l₂)]
  intro x
  unfold normalizedAllergens
  rw [mem_foldl_addAllergen, mem_foldl_addAllergen]
  constructor
  · rintro (h' | ⟨t, ht, h'⟩)
    · exact absurd h' (List.not_mem_nil x)
    · exact Or.inr ⟨t, h.mem_iff.mp ht, h'⟩
  · rintro (h' | ⟨t, ht, h'⟩)
    · exact absurd h' (List.not_mem_nil x)
    · exact Or.inr ⟨t, h.mem_iff.mpr ht, h'⟩

theorem sortTokens_sorted (l : List (List Char)) : List.Sorted tokenLe (sortTokens l) :=
  List.sorted_insertionSort tokenLe l

theorem sortTokens_perm (l : List (List Char)) : (sortTokens l).Perm l :=
  List.perm_insertionSort tokenLe l

theorem sortTokens_eq_of_perm {l₁ l₂ : List (List Char)} (h : l₁.Perm l₂) :
    sortTokens l₁ = sortTokens l₂ :=
  List.eq_of_perm_of_sorted
    ((sortTokens_perm l₁).trans (h.trans (sortTokens_perm l₂).symm))
    (sortTokens_sorted l₁) (sortTokens_sorted l₂)

theorem processAllergenProfile_perm {l₁ l₂ : List (List Char)} (h : l₁.Perm l₂) :
    processAllergenProfile (.list l₁) = processAllergenProfile (.list l₂) := by
  have hperm : (normalizedAllergens (allergenTokens (.list l₁))).Perm
      (normalizedAllergens (allergenTokens (.list l₂))) :=
    normalizedAllergens_perm (h.map pyStrip)
  unfold processAllergenProfile
  by_cases h1 : normalizedAllergens (allergenTokens (.list l₁)) = []
  · have h2 : normalizedAllergens (allergenTokens (.list l₂)) = [] := by
      rw [← List.length_eq_zero, ← hperm.length_eq, h1]; rfl
    rw [if_pos h1, if_pos h2]
  · have h2 : normalizedAllergens (allergenTokens (.list l₂)) ≠ [] := by
      intro h2
      exact h1 (by rw [← List.length_eq_zero, hperm.length_eq, h2]; rfl)
    rw [if_neg h1, if_neg h2, sortTokens_eq_of_perm hperm]

/-- Claim C2: `canonicalize_allergens` is order-independent — permuting the
input allergen list never changes the canonical text; in particular both
`["wheat","eggs","milk"]` and `["milk","wheat","eggs"]` canonicalize to
exactly `"contains dairy, egg, gluten"`. -/
theorem allergen_canonicalization_order_independent :
    (∀ l₁ l₂ : List (List Char), l₁.Perm l₂ →
      processAllergenProfile (.list l₁) = processAllergenProfile (.list l₂)) ∧
    processAllergenProfile (.list ["wheat".data, "eggs".data, "milk".data]) =
      "contains dairy, egg, gluten".data ∧
    processAllergenProfile (.list ["milk".data, "wheat".data, "eggs".data]) =
      "contains dairy, egg, gluten".data := by
  refine ⟨fun l₁ l₂ h => processAllergenProfile_perm h, by decide, by decide⟩

/-- Witness for C2: the two concrete permuted lists from the claim, with the
permutation hypothesis discharged by `decide`. -/
theorem allergen_canonicalization_order_independent_witness :
    processAllergenProfile (.list ["wheat".data, "eggs".data, "milk".data]) =
      processAllergenProfile (.list ["milk".data, "wheat".data, "eggs".data]) :=
  allergen_canonicalization_order_independent.1
    ["wheat".data, "eggs".data, "milk".data]
    ["milk".data, "wheat".data, "eggs".data] (by decide)

/-- Claim C6: `canonicalize_allergens` returns either the literal
`"no known allergens"` (exactly when the normalized token set is empty, in
particular for the empty list) or `"contains "` followed by the deduplicated
tokens joined with `", "` in lexicographically sorted order. -/
theorem allergen_canonical_text_shape :
    (∀ a : AllergenInput,
      (normalizedAllergens (allergenTokens a) = [] ∧
        processAllergenProfile a = "no known allergens".data) ∨
      (normalizedAllergens (allergenTokens a) ≠ [] ∧
        ∃ toks : List (List Char), toks ≠ [] ∧ toks.Nodup ∧ List.Sorted tokenLe toks ∧
          (∀ x, x ∈ toks ↔ x ∈ normalizedAllergens (allergenTokens a)) ∧
          processAllergenProfile a = "contains ".data ++ List.intercalate ", ".data toks)) ∧
    processAllergenProfile (.list []) = "no known allergens".data := by
  constructor
  · intro a
    by_cases h : normalizedAllergens (allergenTokens a) = []
    · exact Or.inl ⟨h, by rw [processAllergenProfile, if_pos h]⟩
    · refine Or.inr ⟨h, sortTokens (normalizedAllergens (allergenTokens a)), ?_, ?_, ?_, ?_, ?_⟩
      · intro hs
        exact h (by
          rw [← List.length_eq_zero, ← (sortTokens_perm _).length_eq, hs]; rfl)
      · exact (sortTokens_perm _).nodup_iff.mpr (normalizedAllergens_nodup _)
      · exact sortTokens_sorted _
      · exact fun x => (sortTokens_perm _).mem_iff
      · rw [processAllergenProfile, if_neg h]
  · decide

/-- Claim C5: per-token allergen normalisation is lower-casing, stripping of
the `en:` and `allergens:` markers, then exactly the fixed mapping table,
with unmapped tokens passing through unchanged; the table maps milk→dairy,
eggs→egg, tree-nuts→tree nuts, tree_nuts→tree nuts, peanuts→peanut,
shellfish→shellfish, fish→fish, wheat→gluten, soy→soy, sesame→sesame. -/
theorem allergen_token_mapping :
    (∀ t : List Char,
      (∀ v, List.lookup (markerStripped t) allergenMapping = some v →
        normalizeAllergenToken t = v) ∧
      (List.lookup (markerStripped t) allergenMapping = none →
        normalizeAllergenToken t = markerStripped t)) ∧
    (normalizeAllergenToken "milk".data = "dairy".data ∧
     normalizeAllergenToken "eggs".data = "egg".data ∧
     normalizeAllergenToken "tree-nuts".data = "tree nuts".data ∧
     normalizeAllergenToken "tree_nuts".data = "tree nuts".data ∧
     normalizeAllergenToken "peanuts".data = "peanut".data ∧
     normalizeAllergenToken "shellfish".data = "shellfish".data ∧
     normalizeAllergenToken "fish".data = "fish".data ∧
     normalizeAllergenToken "wheat".data = "gluten".data ∧
     normalizeAllergenToken "soy".data = "soy".data ∧
     normalizeAllergenToken "sesame".data = "sesame".data) ∧
    (normalizeAllergenToken "en:Milk".data = "dairy".data ∧
     normalizeAllergenToken "allergens:WHEAT".data = "gluten".data ∧
     normalizeAllergenToken "Chocolate".data = "chocolate".data) := by
  refine ⟨fun t => ⟨fun v hv => ?_, fun h => ?_⟩, by decide, by decide⟩
  · rw [normalizeAllergenToken, hv]; rfl
  · rw [normalizeAllergenToken, h]; rfl

/-- Witness for C5: the mapped branch applied at the concrete raw token
`"en:Milk"`, whose lookup hypothesis evaluates by `decide`. -/
theorem allergen_token_mapping_witness :
    normalizeAllergenToken "en:Milk".data = "dairy".data :=
  (allergen_token_mapping.1 "en:Milk".data).1 "dairy".data (by decide)

theorem sumSq_nil : sumSq [] = 0 := rfl

theorem sumSq_cons (x : FloatVal) (v : List FloatVal) : sumSq (x :: v) = x.sq + sumSq v := by
  simp [sumSq]

theorem sumSq_replicate (n : Nat) (q : ℚ) :
    sumSq (List.replicate n (FloatVal.finite q)) = n * (q * q) := by
  induction n with
  | zero => simp [sumSq]
  | succ n ih =>
    rw [List.replicate_succ, sumSq_cons, ih, FloatVal.sq]
    push_cast
    ring

theorem any_replicate_false {p : FloatVal → Bool} {x : FloatVal} (n : Nat) (h : p x = false) :
    (List.replicate n x).any p = false := by
  induction n with
  | zero => rfl
  | succ n ih => rw [List.replicate_succ, List.any_cons, h, ih]; rfl

theorem nearZero_sq_le {x : FloatVal} (h : x.nearZero = true) :
    x.sq ≤ 1 / 1000000 * (1 / 1000000) := by
  cases x with
  | nan => simp [FloatVal.nearZero] at h
  | inf b => simp [FloatVal.nearZero] at h
  | finite q =>
    simp only [FloatVal.nearZero, decide_eq_true_eq] at h
    rw [FloatVal.sq, ← abs_mul_abs_self q]
    exact mul_le_mul h h (abs_nonneg q) (by norm_num)

theorem sumSq_le_of_all_nearZero (v : List FloatVal) (h : v.all FloatVal.nearZero = true) :
    sumSq v ≤ v.length * (1 / 1000000 * (1 / 1000000)) := by
  induction v with
  | nil => simp [sumSq]
  | cons x xs ih =>
    rw [List.all_cons, Bool.and_eq_true] at h
    rw [sumSq_cons, List.length_cons]
    have h1 := nearZero_sq_le h.1
    have h2 := ih h.2
    push_cast
    nlinarith

/-- Claim C3: the quality gate is a total function into a verdict (it cannot
raise), and a rejection's reason code is exactly the reason of the first
failing rule in source order (non-empty, dimension, NaN/Inf, magnitude,
zero-vector, field-specific); the six reason codes are pairwise distinct, so
the reason distinguishes which rule failed. -/
theorem quality_gate_first_failing_rule :
    (∀ (v : List FloatVal) (ft : FieldType) (t : List Char),
      validateEmbeddingQuality v ft t =
        match ruleOrder.find? (ruleFails v ft t) with
        | some r => Verdict.rejected r
        | none => Verdict.accepted) ∧
    ruleOrder.Nodup := by
  constructor
  · intro v ft t
    by_cases h1 : v.length = 0
    · simp [validateEmbeddingQuality, ruleOrder, ruleFails, List.find?, h1]
    · by_cases h2 : v.length ≠ 384
      · simp [validateEmbeddingQuality, ruleOrder, ruleFails, List.find?, h1, h2]
      · by_cases h3 : (v.any FloatVal.isNaN || v.any FloatVal.isInf) = true
        · simp [validateEmbeddingQuality, ruleOrder, ruleFails, List.find?, h1, h2, h3]
        · by_cases h4 : magnitudeBad v = true
          · simp [validateEmbeddingQuality, ruleOrder, ruleFails, List.find?, h1, h2, h3, h4]
          · by_cases h5 : v.all FloatVal.nearZero = true
            · simp [validateEmbeddingQuality, ruleOrder, ruleFails, List.find?,
                h1, h2, h3, h4, h5]
            · by_cases h6 : fieldRuleBad ft t = true
              · simp [validateEmbeddingQuality, ruleOrder, ruleFails, List.find?,
                  h1, h2, h3, h4, h5, h6]
              · simp [validateEmbeddingQuality, ruleOrder, ruleFails, List.find?,
                  h1, h2, h3, h4, h5, h6]
  · decide

/-- Claim C10: the zero-vector rejection branch of the quality gate is
unreachable — a 384-element vector with every element within 1e-6 of zero
has squared norm at most 384e-12 < 0.1², so the magnitude rule has already
rejected it; no input makes the gate report the zero-vector reason. -/
theorem zero_vector_rule_unreachable :
    ∀ (v : List FloatVal) (ft : FieldType) (t : List Char),
      validateEmbeddingQuality v ft t ≠ Verdict.rejected Reason.zeroVector := by
  intro v ft t h
  unfold validateEmbeddingQuality at h
  split_ifs at h with h1 h2 h3 h4 h5 h6
  · exact absurd (Verdict.rejected.inj h) (by decide)
  · exact absurd (Verdict.rejected.inj h) (by decide)
  · exact absurd (Verdict.rejected.inj h) (by decide)
  · exact absurd (Verdict.rejected.inj h) (by decide)
  · have hlen : v.length = 384 := not_not.mp (by simpa using h2)
    rw [Bool.or_eq_true, not_or, Bool.not_eq_true, Bool.not_eq_true] at h3
    have hmag : ¬(sumSq v < 1 / 100 ∨ 4 < sumSq v) := by
      rw [magnitudeBad, h3.1, h3.2] at h4
      simpa using h4
    have hle : sumSq v ≤ 384 * (1 / 1000000 * (1 / 1000000)) := by
      have hb := sumSq_le_of_all_nearZero v h5
      rw [hlen] at hb
      push_cast at hb
      exact hb
    exact (not_or.mp hmag).1 (lt_of_le_of_lt hle (by norm_num))
  · exact absurd (Verdict.rejected.inj h) (by decide)

/-- Witness for C10 (the statement is a negated equation): applying the
theorem at a concrete input. -/
theorem zero_vector_rule_unreachable_witness :
    validateEmbeddingQuality [] FieldType.ingredient [] ≠ Verdict.rejected Reason.zeroVector :=
  zero_vector_rule_unreachable [] FieldType.ingredient []

theorem validate_eval_of (v : List FloatVal) (ft : FieldType) (t : List Char)
    (hlen : v.length = 384)
    (hnan : v.any FloatVal.isNaN = false) (hinf : v.any FloatVal.isInf = false) :
    validateEmbeddingQuality v ft t =
      (if magnitudeBad v then Verdict.rejected Reason.unusualMagnitude
       else if v.all FloatVal.nearZero then Verdict.rejected Reason.zeroVector
       else if fieldRuleBad ft t then Verdict.rejected Reason.fieldSpecific
       else Verdict.accepted) := by
  rw [validateEmbeddingQuality]
  rw [if_neg (by rw [hlen]; exact (by decide)),
      if_neg (by rw [hlen]; exact (by decide)),
      if_neg (by rw [hnan, hinf]; exact (by decide))]

/-- Counterexample to C4 as stated: a 384-element vector with Euclidean norm
exactly 2.0 (squared norm exactly 4) is accepted by the gate, although 2.0
lies outside an inclusive-exclusive band at 2.0 — the source comparison is
`magnitude > 2.0`, so the upper bound is inclusive. -/
theorem magnitude_band_counterexample :
    validateEmbeddingQuality (FloatVal.finite 2 :: List.replicate 383 (FloatVal.finite 0))
      FieldType.ingredient "flour".data = Verdict.accepted ∧
    sumSq (FloatVal.finite 2 :: List.replicate 383 (FloatVal.finite 0)) = 2 * 2 := by
  have hss : sumSq (FloatVal.finite 2 :: List.replicate 383 (FloatVal.finite 0)) = 4 := by
    rw [sumSq_cons, sumSq_replicate, FloatVal.sq]
    norm_num
  have hnan : (FloatVal.finite 2 :: List.replicate 383 (FloatVal.finite 0)).any
      FloatVal.isNaN = false := by
    rw [List.any_cons, any_replicate_false 383 rfl]
    rfl
  have hinf : (FloatVal.finite 2 :: List.replicate 383 (FloatVal.finite 0)).any
      FloatVal.isInf = false := by
    rw [List.any_cons, any_replicate_false 383 rfl]
    rfl
  have hmag : magnitudeBad (FloatVal.finite 2 :: List.replicate 383 (FloatVal.finite 0)) =
      false := by
    rw [magnitudeBad, hnan, hinf]
    simp only [Bool.false_eq_true, if_false, decide_eq_false_iff_not]
    rw [hss]
    norm_num
  have hzero : (FloatVal.finite 2 :: List.replicate 383 (FloatVal.finite 0)).all
      FloatVal.nearZero = false := by
    rw [List.all_cons]
    have : (FloatVal.finite 2).nearZero = false := by
      simp only [FloatVal.nearZero, decide_eq_false_iff_not]
      norm_num
    rw [this]
    rfl
  have hfield : fieldRuleBad FieldType.ingredient "flour".data = false := by decide
  have hlen : (FloatVal.finite 2 :: List.replicate 383 (FloatVal.finite 0)).length = 384 := by
    rw [List.length_cons, List.length_replicate]
  refine ⟨?_, by rw [hss]; norm_num⟩
  rw [validate_eval_of _ _ _ hlen hnan hinf, if_neg (by rw [hmag]; exact (by decide)),
      if_neg (by rw [hzero]; exact (by decide)), if_neg (by rw [hfield]; exact (by decide))]

/-- Claim C4 as amended: the magnitude band is inclusive at both ends — the
gate accepts only vectors whose squared norm lies in [0.1², 2.0²] (the
source rejects on `magnitude < 0.1 or magnitude > 2.0`); a 384-element
vector of all 0.001 is rejected for unusual magnitude, a 384-element vector
of all 10.0 is rejected for unusual magnitute, and a unit-norm vector
passing the other rules is accepted. -/
theorem magnitude_band_amended :
    (∀ (v : List FloatVal) (ft : FieldType) (t : List Char),
      validateEmbeddingQuality v ft t = Verdict.accepted →
      v.any FloatVal.isNaN = false ∧ v.any FloatVal.isInf = false ∧
      1 / 100 ≤ sumSq v ∧ sumSq v ≤ 4) ∧
    validateEmbeddingQuality (List.replicate 384 (FloatVal.finite (1 / 1000)))
      FieldType.ingredient "flour".data = Verdict.rejected Reason.unusualMagnitude ∧
    validateEmbeddingQuality (List.replicate 384 (FloatVal.finite 10))
      FieldType.ingredient "flour".data = Verdict.rejected Reason.unusualMagnitude ∧
    validateEmbeddingQuality (FloatVal.finite 1 :: List.replicate 383 (FloatVal.finite 0))
      FieldType.ingredient "flour".data = Verdict.accepted := by
  refine ⟨?_, ?_, ?_, ?_⟩
  · intro v ft t h
    unfold validateEmbeddingQuality at h
    split_ifs at h with h1 h2 h3 h4 h5 h6
    rw [Bool.or_eq_true, not_or, Bool.not_eq_true, Bool.not_eq_true] at h3
    refine ⟨h3.1, h3.2, ?_, ?_⟩
    · have hmag : ¬(sumSq v < 1 / 100 ∨ 4 < sumSq v) := by
        rw [magnitudeBad, h3.1, h3.2] at h4
        simpa using h4
      exact le_of_not_lt (not_or.mp hmag).1
    · have hmag : ¬(sumSq v < 1 / 100 ∨ 4 < sumSq v) := by
        rw [magnitudeBad, h3.1, h3.2] at h4
        simpa using h4
      exact le_of_not_lt (not_or.mp hmag).2
  · have hnan : (List.replicate 384 (FloatVal.finite (1 / 1000))).any FloatVal.isNaN = false :=
      any_replicate_false 384 rfl
    have hinf : (List.replicate 384 (FloatVal.finite (1 / 1000))).any FloatVal.isInf = false :=
      any_replicate_false 384 rfl
    have hmag : magnitudeBad (List.replicate 384 (FloatVal.finite (1 / 1000))) = true := by
      rw [magnitudeBad, hnan, hinf]
      simp only [Bool.false_eq_true, if_false, decide_eq_true_eq]
      rw [sumSq_replicate]
      norm_num
    have hlen : (List.replicate 384 (FloatVal.finite (1 / 1000))).length = 384 :=
      List.length_replicate 384 _
    rw [validate_eval_of _ _ _ hlen hnan hinf, if_pos hmag]
  · have hnan : (List.replicate 384 (FloatVal.finite 10)).any FloatVal.isNaN = false :=
      any_replicate_false 384 rfl
    have hinf : (List.replicate 384 (FloatVal.finite 10)).any FloatVal.isInf = false :=
      any_replicate_false 384 rfl
    have hmag : magnitudeBad (List.replicate 384 (FloatVal.finite 10)) = true := by
      rw [magnitudeBad, hnan, hinf]
      simp only [Bool.false_eq_true, if_false, decide_eq_true_eq]
      rw [sumSq_replicate]
      norm_num
    have hlen : (List.replicate 384 (FloatVal.finite 10)).length = 384 :=
      List.length_replicate 384 _
    rw [validate_eval_of _ _ _ hlen hnan hinf, if_pos hmag]
  · have hss : sumSq (FloatVal.finite 1 :: List.replicate 383 (FloatVal.finite 0)) = 1 := by
      rw [sumSq_cons, sumSq_replicate, FloatVal.sq]
      norm_num
    have hnan : (FloatVal.finite 1 :: List.replicate 383 (FloatVal.finite 0)).any
        FloatVal.isNaN = false := by
      rw [List.any_cons, any_replicate_false 383 rfl]
      rfl
    have hinf : (FloatVal.finite 1 :: List.replicate 383 (FloatVal.finite 0)).any
        FloatVal.isInf = false := by
      rw [List.any_cons, any_replicate_false 383 rfl]
      rfl
    have hmag : magnitudeBad (FloatVal.finite 1 :: List.replicate 383 (FloatVal.finite 0)) =
        false := by
      rw [magnitudeBad, hnan, hinf]
      simp only [Bool.false_eq_true, if_false, decide_eq_false_iff_not]
      rw [hss]
      norm_num
    have hzero : (FloatVal.finite 1 :: List.replicate 383 (FloatVal.finite 0)).all
        FloatVal.nearZero = false := by
      rw [List.all_cons]
      have h1 : (FloatVal.finite 1).nearZero = false := by
        simp only [FloatVal.nearZero, decide_eq_false_iff_not]
        norm_num
      rw [h1]
      rfl
    have hfield : fieldRuleBad FieldType.ingredient "flour".data = false := by decide
    have hlen : (FloatVal.finite 1 :: List.replicate 383 (FloatVal.finite 0)).length = 384 := by
      rw [List.length_cons, List.length_replicate]
    rw [validate_eval_of _ _ _ hlen hnan hinf, if_neg (by rw [hmag]; exact (by decide)),
        if_neg (by rw [hzero]; exact (by decide)), if_neg (by rw [hfield]; exact (by decide))]

/-- Witness for C4 (amended): the acceptance characterization applied at the
concrete accepted unit vector, discharging the acceptance hypothesis with
the theorem's own concrete conjunct. -/
theorem magnitude_band_amended_witness :
    1 / 100 ≤ sumSq (FloatVal.finite 1 :: List.replicate 383 (FloatVal.finite 0)) ∧
    sumSq (FloatVal.finite 1 :: List.replicate 383 (FloatVal.finite 0)) ≤ 4 :=
  ⟨(magnitude_band_amended.1 _ FieldType.ingredient "flour".data
      magnitude_band_amended.2.2.2).2.2.1,
   (magnitude_band_amended.1 _ FieldType.ingredient "flour".data
      magnitude_band_amended.2.2.2).2.2.2⟩

/-- Counterexample to C1 as stated: the allergen field rejects only falsy
input (`if not allergens`), so a whitespace-only allergen string such as
`"   "` is not rejected as empty input — the external model is invoked
(call count 1, not 0). -/
theorem empty_input_rejection_counterexample :
    ("   ".data ≠ [] ∧ pyStrip "   ".data = []) ∧
    (generateAllergenEmbedding (fun _ => none) (AllergenInput.str "   ".data)).2 = 1 := by
  refine ⟨⟨by decide, by decide⟩, ?_⟩
  rw [generateAllergenEmbedding, if_neg (by decide)]

/-- Claim C1 as amended: for the ingredient and product-name fields, empty
or whitespace-only raw input yields Rejected(empty-input) with zero model
calls; for the allergen field the same holds for empty input (empty string
or empty list), but a whitespace-only allergen string is not caught by the
emptiness guard and proceeds to the model. -/
theorem empty_input_rejection_amended :
    (∀ (m : Model) (t : List Char), t = [] ∨ pyStrip t = [] →
      generateIngredientEmbedding m t = (GenResult.rejected GenReason.emptyInput, 0)) ∧
    (∀ (m : Model) (t : List Char), t = [] ∨ pyStrip t = [] →
      generateProductNameEmbedding m t = (GenResult.rejected GenReason.emptyInput, 0)) ∧
    (∀ m : Model,
      generateAllergenEmbedding m (AllergenInput.str []) =
        (GenResult.rejected GenReason.emptyInput, 0) ∧
      generateAllergenEmbedding m (AllergenInput.list []) =
        (GenResult.rejected GenReason.emptyInput, 0)) := by
  refine ⟨fun m t h => ?_, fun m t h => ?_, fun m => ⟨?_, ?_⟩⟩
  · rw [generateIngredientEmbedding, if_pos h]
  · rw [generateProductNameEmbedding, if_pos h]
  · rw [generateAllergenEmbedding, if_pos (by decide)]
  · rw [generateAllergenEmbedding, if_pos (by decide)]

/-- Witness for C1 (amended): a concrete whitespace-only ingredient input,
with the emptiness hypothesis discharged by `decide`. -/
theorem empty_input_rejection_amended_witness :
    generateIngredientEmbedding (fun _ => none) "   ".data =
      (GenResult.rejected GenReason.emptyInput, 0) :=
  empty_input_rejection_amended.1 (fun _ => none) "   ".data (Or.inr (by decide))

/-- Counterexample to C7 as stated: a run of three commas is not collapsed
to a single comma — `re.sub(r',\s*,', ',', ...)` makes one non-overlapping
left-to-right pass, so `"a,,,b"` canonicalizes to `"a,,b"`, which still
contains a doubled comma. -/
theorem comma_collapse_counterexample :
    preprocessIngredients "a,,,b".data = "a,,b".data ∧
    hasDoubledPunct (preprocessIngredients "a,,,b".data) = true := by
  exact ⟨by decide, by decide⟩

/-- Claim C7 as amended: the comma-collapse step rewrites non-overlapping
`,<whitespace>,` matches to a single comma in one left-to-right pass, so
pairs of commas collapse but a longer run can leave a doubled comma
(`"a,,,b"` yields `"a,,b"`); the claim's concrete example
`"wheat flour,, sugar;; eggs!! butter??"` does canonicalize with no doubled
punctuation. -/
theorem comma_collapse_amended :
    preprocessIngredients "wheat flour,, sugar;; eggs!! butter??".data =
      "flour wheat, sugar eggs butter".data ∧
    hasDoubledPunct (preprocessIngredients "wheat flour,, sugar;; eggs!! butter??".data) =
      false ∧
    preprocessIngredients "a,,,b".data = "a,,b".data := by
  exact ⟨by decide, by decide, by decide⟩

/-- Claim C8: batch generation returns one result per input preserving input
order — an empty input list yields an empty result with zero calls to the
external capability, and for the single bulk call the result has exactly the
input's length whenever the external capability honours its same-length,
same-order contract (per-item failures cannot arise in the batch path: the
source has no per-item canonicalization or validation there, and a capability
failure fails the whole batch). -/
theorem batch_order_preservation :
    (∀ bm : BatchModel, generateEmbeddingsBatch bm [] = (some [], 0)) ∧
    (∀ bm : BatchModel, (∀ ts rs, bm ts = some rs → rs.length = ts.length) →
      ∀ (texts : List (List Char)) (es : List (List FloatVal)),
        (generateEmbeddingsBatch bm texts).1 = some es → es.length = texts.length) := by
  constructor
  · intro bm
    rw [generateEmbeddingsBatch, if_pos rfl]
  · intro bm hbm texts es h
    by_cases ht : texts = []
    · subst ht
      rw [generateEmbeddingsBatch, if_pos rfl] at h
       
      have : es = [] := by injection h with h'; exact h'.symm
      rw [this]
      rfl
    · rw [generateEmbeddingsBatch, if_neg ht] at h
      cases hb : bm texts with
      | none => rw [hb] at h; exact absurd h (by simp)
      | some rs =>
        rw [hb] at h
        simp only at h
        injection h with h'
        rw [← h']
        exact hbm texts rs hb

/-- Witness for C8: a batch capability that returns one (empty) vector per
input, applied to a one-element batch; the length contract and the result
equation are discharged concretely. -/
theorem batch_order_preservation_witness :
    ([([] : List FloatVal)]).length = [("a".data)].length :=
  batch_order_preservation.2 (fun ts => some (ts.map (fun _ => [])))
    (fun ts rs h => by injection h with h'; rw [← h', List.length_map])
    ["a".data] [[]] (by rfl)

/-- Claim C9: `handle_command` answers any unknown operation name with
`{success: false, error: "Unknown command: <name>"}` and zero model calls,
and each single-text embedding command with missing or empty `text` with
`{success: false, error: "Text is required"}` without invoking the model. -/
theorem command_interface_errors :
    (∀ (m : Model) (bm : BatchModel) (cmd : List Char) (args : CommandArgs),
      cmd ∉ knownCommands →
      handleCommand m bm cmd args =
        (IfaceResponse.failure ("Unknown command: ".data ++ cmd), 0)) ∧
    (∀ (m : Model) (bm : BatchModel) (args : CommandArgs), args.text.getD [] = [] →
      handleCommand m bm "generate_ingredient_embedding".data args =
        (IfaceResponse.failure "Text is required".data, 0) ∧
      handleCommand m bm "generate_product_name_embedding".data args =
        (IfaceResponse.failure "Text is required".data, 0) ∧
      handleCommand m bm "generate_allergen_embedding".data args =
        (IfaceResponse.failure "Text is required".data, 0)) := by
  constructor
  · intro m bm cmd args h
    simp only [knownCommands, List.mem_cons, List.not_mem_nil, or_false, not_or] at h
    rw [handleCommand, if_neg h.1, if_neg h.2.1, if_neg h.2.2.1, if_neg h.2.2.2.1,
      if_neg h.2.2.2.2]
  · intro m bm args h
    refine ⟨?_, ?_, ?_⟩
    · rw [handleCommand, if_neg (by decide), if_pos rfl, ifaceIngredient, h, if_pos rfl]
    · rw [handleCommand, if_neg (by decide), if_neg (by decide), if_pos rfl,
        ifaceProductName, h, if_pos rfl]
    · rw [handleCommand, if_neg (by decide), if_neg (by decide), if_neg (by decide),
        if_pos rfl, ifaceAllergen, h, if_pos rfl]

/-- Witness for C9: a concrete unknown command name and a concrete argument
record with no text, with both hypotheses discharged by `decide` or `rfl`. -/
theorem command_interface_errors_witness :
    handleCommand (fun _ => none) (fun _ => none) "bogus".data ⟨none, none⟩ =
      (IfaceResponse.failure ("Unknown command: ".data ++ "bogus".data), 0) ∧
    handleCommand (fun _ => none) (fun _ => none) "generate_ingredient_embedding".data
      ⟨none, none⟩ = (IfaceResponse.failure "Text is required".data, 0) :=
  ⟨command_interface_errors.1 (fun _ => none) (fun _ => none) "bogus".data ⟨none, none⟩
      (by decide),
   (command_interface_errors.2 (fun _ => none) (fun _ => none) ⟨none, none⟩ rfl).1⟩
